import Mathlib

/-!
Shallow embedding of the CSV parsing core of the ohlcv-ts repository.

Strings are modelled as lists of characters (the TypeScript code iterates
over the characters of its strings one by one).  JavaScript numbers are
modelled as rational numbers, with an extra value for NaN: the type JsNum
below is an option type whose none value plays the role of NaN.  This
idealises IEEE doubles by exact rational arithmetic and it does not model
the infinite values; every concrete value appearing in the claims is an
exactly representable decimal, and the quantified theorems state their
hypotheses through the model parsing functions, so the idealisation only
narrows hypotheses, never changes an outcome they cover.

The embedded functions keep the names of the source functions:
yyyymmddToUnix from src/utils/date.ts, the class InternalStateMachineCore
with processFieldEnd, processRowEnd, processCharInternal, processChunk and
finalize from src/parser/_state_machine_core.ts, the entry point
parseFullStringWithStateMachine from src/parser/state_machine_full_string.ts
and parseOhlcvLineOptimizedInternal from src/parser/stream_optimized_ohlcv.ts.
The two callbacks onRow and onSkip are modelled by an event trace carried
inside the core state: each record emission and each skip notification is
appended to the trace in chronological order.
-/

namespace Ohlcv

/-- A JavaScript number: none models NaN, some q models the real value q. -/
abbrev JsNum := Option ℚ

/-- Whitespace characters recognised by the JavaScript trim operation,
restricted to the ASCII set that actually occurs in CSV input. -/
def isJsWhitespace (ch : Char) : Bool :=
  ch == ' ' || ch == '\t' || ch == '\n' || ch == '\r'

/-- Remove leading and trailing whitespace, the model of String.prototype.trim. -/
def trimChars (l : List Char) : List Char :=
  ((l.dropWhile isJsWhitespace).reverse.dropWhile isJsWhitespace).reverse

/-- Numeric value of a list of decimal digit characters. -/
def digitsVal (l : List Char) : Nat :=
  l.foldl (fun a ch => 10 * a + (ch.toNat - 48)) 0

/-- Model of the JavaScript parseFloat function: skip leading whitespace,
read an optional sign, then the longest prefix shaped like a decimal
literal with an optional fraction and an optional exponent; return NaN
when no such nonempty prefix exists.  Trailing garbage is ignored. -/
def jsParseFloat (l : List Char) : JsNum :=
  let t0 := l.dropWhile isJsWhitespace
  let sign : ℚ := match t0 with | '-' :: _ => -1 | _ => 1
  let t := match t0 with | '-' :: r => r | '+' :: r => r | _ => t0
  let ip := t.takeWhile Char.isDigit
  let t1 := t.drop ip.length
  let fp := match t1 with | '.' :: r => r.takeWhile Char.isDigit | _ => []
  let t2 := match t1 with | '.' :: r => r.drop (r.takeWhile Char.isDigit).length | _ => t1
  if ip.isEmpty && fp.isEmpty then none
  else
    let mant : ℚ := (digitsVal (ip ++ fp) : ℚ) / (10 : ℚ) ^ fp.length
    let exp : ℤ :=
      match t2 with
      | ch :: r =>
        if ch == 'e' || ch == 'E' then
          let esign : ℤ := match r with | '-' :: _ => -1 | _ => 1
          let r1 := match r with | '-' :: rr => rr | '+' :: rr => rr | _ => r
          let ed := r1.takeWhile Char.isDigit
          if ed.isEmpty then 0 else esign * (digitsVal ed : ℤ)
        else 0
      | [] => 0
    some (sign * mant * (10 : ℚ) ^ exp)

/-- Model of the JavaScript parseInt function with radix 10: skip leading
whitespace, read an optional sign and then the longest prefix of decimal
digits; NaN when that prefix is empty. -/
def jsParseInt10 (l : List Char) : JsNum :=
  let t0 := l.dropWhile isJsWhitespace
  let sign : ℚ := match t0 with | '-' :: _ => -1 | _ => 1
  let t := match t0 with | '-' :: r => r | '+' :: r => r | _ => t0
  let ds := t.takeWhile Char.isDigit
  if ds.isEmpty then none else some (sign * (digitsVal ds : ℚ))

/-- Hexadecimal digit test. -/
def isHexDigit (ch : Char) : Bool :=
  ch.isDigit || ('a' ≤ ch && ch ≤ 'f') || ('A' ≤ ch && ch ≤ 'F')

/-- Value of a list of hexadecimal digit characters. -/
def hexVal (l : List Char) : Nat :=
  l.foldl
    (fun a ch =>
      16 * a +
        (if 97 ≤ ch.toNat then ch.toNat - 87
         else if 65 ≤ ch.toNat then ch.toNat - 55
         else ch.toNat - 48))
    0

/-- Full-string decimal literal conversion used by the unary plus model:
like jsParseFloat but the whole input must be consumed. -/
def jsDecFull (t00 : List Char) : Option ℚ :=
  let sign : ℚ := match t00 with | '-' :: _ => -1 | _ => 1
  let t := match t00 with | '-' :: r => r | '+' :: r => r | _ => t00
  let ip := t.takeWhile Char.isDigit
  let t1 := t.drop ip.length
  let fp := match t1 with | '.' :: r => r.takeWhile Char.isDigit | _ => []
  let t2 := match t1 with | '.' :: r => r.drop (r.takeWhile Char.isDigit).length | _ => t1
  if ip.isEmpty && fp.isEmpty then none
  else
    let mant : ℚ := (digitsVal (ip ++ fp) : ℚ) / (10 : ℚ) ^ fp.length
    match t2 with
    | [] => some (sign * mant)
    | ch :: r =>
      if ch == 'e' || ch == 'E' then
        let esign : ℤ := match r with | '-' :: _ => -1 | _ => 1
        let r1 := match r with | '-' :: rr => rr | '+' :: rr => rr | _ => r
        let ed := r1.takeWhile Char.isDigit
        if ed.isEmpty || !(r1.drop ed.length).isEmpty then none
        else some (sign * mant * (10 : ℚ) ^ (esign * (digitsVal ed : ℤ)))
      else none

/-- Model of the JavaScript unary plus (the Number conversion applied to a
string): trim, empty means zero, a 0x or 0o or 0b prefix selects a
non-decimal integer literal, otherwise the whole string must be a decimal
literal.  The infinite values are not modelled and give NaN. -/
def jsToNumber (l : List Char) : JsNum :=
  let t := trimChars l
  if t.isEmpty then some 0
  else
    match t with
    | '0' :: ch :: r =>
      if ch == 'x' || ch == 'X' then
        if !r.isEmpty && r.all isHexDigit then some (hexVal r : ℚ) else none
      else if ch == 'o' || ch == 'O' then
        if !r.isEmpty && r.all (fun d => '0' ≤ d && d ≤ '7') then
          some ((r.foldl (fun a d => 8 * a + (d.toNat - 48)) 0 : Nat) : ℚ)
        else none
      else if ch == 'b' || ch == 'B' then
        if !r.isEmpty && r.all (fun d => d == '0' || d == '1') then
          some ((r.foldl (fun a d => 2 * a + (d.toNat - 48)) 0 : Nat) : ℚ)
        else none
      else jsDecFull t
    | _ => jsDecFull t

/-! ## Date normalizer, from src/utils/date.ts -/

/-- Failure kinds of the date normalizer: InvalidDateFormatError and
DateBeforeEpochError from src/core/errors.ts. -/
inductive DateFail
  | invalidDateFormat
  | dateBeforeEpoch
deriving DecidableEq, Repr

/-- Gregorian leap year rule, as implemented by the JavaScript Date class. -/
def isLeapYear (y : Nat) : Bool :=
  y % 4 == 0 && (y % 100 != 0 || y % 400 == 0)

/-- Number of days of a month (month given from 1 to 12). -/
def daysInMonth (y m : Nat) : Nat :=
  if m == 2 then (if isLeapYear y then 29 else 28)
  else if m == 4 || m == 6 || m == 9 || m == 11 then 30
  else 31

/-- Days from 1970-01-01 to the first day of the year 1970 + n. -/
def daysSinceEpochOfYearOffset : Nat → Nat
  | 0 => 0
  | n + 1 => daysSinceEpochOfYearOffset n + (if isLeapYear (1970 + n) then 366 else 365)

/-- Days of the year y that precede the month m. -/
def daysBeforeMonth (y m : Nat) : Nat :=
  (List.range (m - 1)).foldl (fun a i => a + daysInMonth y (i + 1)) 0

/-- Days from 1970-01-01 to the civil date (y, m, d), for y at least 1970. -/
def daysFromCivil (y m d : Nat) : Nat :=
  daysSinceEpochOfYearOffset (y - 1970) + daysBeforeMonth y m + (d - 1)

/-- Model of yyyymmddToUnix from src/utils/date.ts on a character list.
The regular expression test asks for exactly four digits, a dash, two
digits, a dash and two digits; the component values are then read off
(splitting at the dashes and applying parseInt, which on the matched
shape is plain digit evaluation and never NaN).  The checks follow the
source order: year before 1970 fails with dateBeforeEpoch, a month
outside 1 to 12 or a day outside 1 to 31 fails with invalidDateFormat,
and the Date round trip comparison rejects exactly the days larger than
the length of the month.  On success the result is the count of seconds
from the epoch to the UTC midnight of the date. -/
def yyyymmddToUnixChars (l : List Char) : Except DateFail Nat :=
  match l with
  | [y1, y2, y3, y4, s1, m1, m2, s2, d1, d2] =>
    if y1.isDigit && y2.isDigit && y3.isDigit && y4.isDigit && s1 == '-' &&
        m1.isDigit && m2.isDigit && s2 == '-' && d1.isDigit && d2.isDigit then
      let year := digitsVal [y1, y2, y3, y4]
      let month := digitsVal [m1, m2]
      let day := digitsVal [d1, d2]
      if year < 1970 then Except.error DateFail.dateBeforeEpoch
      else if month < 1 || 12 < month || day < 1 || 31 < day then
        Except.error DateFail.invalidDateFormat
      else if daysInMonth year month < day then
        Except.error DateFail.invalidDateFormat
      else Except.ok (86400 * daysFromCivil year month day)
    else Except.error DateFail.invalidDateFormat
  | _ => Except.error DateFail.invalidDateFormat

/-- The date normalizer on strings, name of the source function. -/
def yyyymmddToUnix (s : String) : Except DateFail Nat :=
  yyyymmddToUnixChars s.data

/-- The year component read off a ten character date shape; zero on any
other shape.  Used only to state properties of successful parses. -/
def dateYearOf (l : List Char) : Nat :=
  match l with
  | [y1, y2, y3, y4, _, _, _, _, _, _] => digitsVal [y1, y2, y3, y4]
  | _ => 0

/-- The month component read off a ten character date shape. -/
def dateMonthOf (l : List Char) : Nat :=
  match l with
  | [_, _, _, _, _, m1, m2, _, _, _] => digitsVal [m1, m2]
  | _ => 0

/-- The day component read off a ten character date shape. -/
def dateDayOf (l : List Char) : Nat :=
  match l with
  | [_, _, _, _, _, _, _, _, d1, d2] => digitsVal [d1, d2]
  | _ => 0

/-! ## Record and error vocabulary, from src/core/row.ts and src/core/errors.ts -/

/-- The record shape: one OHLCV row, all fields JavaScript numbers. -/
structure Row where
  ts : JsNum
  o : JsNum
  h : JsNum
  l : JsNum
  c : JsNum
  v : JsNum
deriving DecidableEq, Repr

/-- Partial record built field by field; none models an unset field. -/
structure PartialRow where
  ts : Option JsNum
  o : Option JsNum
  h : Option JsNum
  l : Option JsNum
  c : Option JsNum
  v : Option JsNum
deriving DecidableEq, Repr

/-- The partial record with every field unset. -/
def PartialRow.empty : PartialRow := ⟨none, none, none, none, none, none⟩

/-- The field tags of ParseErrorDetails.invalidField. -/
inductive FieldName
  | timestamp
  | openField
  | high
  | low
  | close
  | volume
deriving DecidableEq, Repr

/-- The error classes of src/core/errors.ts that reach the skip callback. -/
inductive ErrKind
  | parseError
  | invalidFormat
  | invalidDateFormatErr
  | dateBeforeEpochErr
  | invalidOpen
  | invalidHigh
  | invalidLow
  | invalidClose
  | invalidVolume
deriving DecidableEq, Repr

/-- One invocation of the skip callback: the error kind, the line number,
the line content passed along, and the invalidField tag of the details
argument when the call passes one. -/
structure SkipEvent where
  kind : ErrKind
  lineNumber : Nat
  lineContent : List Char
  invalidField : Option FieldName
deriving DecidableEq, Repr

/-- One observable effect of the core: a row callback invocation or a skip
callback invocation.  The row event also records the line number current
at emission time; the source callback does not receive it, it is carried
here only so that theorems can speak about per line behaviour. -/
inductive Event
  | row (r : Row) (lineNumber : Nat)
  | skip (e : SkipEvent)
deriving DecidableEq, Repr

/-! ## The streaming state machine core, from src/parser/_state_machine_core.ts -/

/-- The internal states of the state machine. -/
inductive ParserMachineInternalState
  | waitingForHeaderStart
  | processingHeader
  | waitingForDataRowStart
  | processingField
  | skippingLineDueToError
deriving DecidableEq, Repr

/-- The mutable state of one InternalStateMachineCore instance, together
with the chronological trace of callback invocations. -/
structure InternalStateMachineCore where
  fieldBuffer : List Char
  currentRow : PartialRow
  fieldIndex : Nat
  state : ParserMachineInternalState
  currentLineNumber : Nat
  currentLineContentForError : List Char
  events : List Event
  totalRowsProcessed : Nat
deriving DecidableEq, Repr

namespace InternalStateMachineCore

/-- The lowercase substring test: fieldValue.toLowerCase().includes("date"). -/
def containsDate (l : List Char) : Bool :=
  (List.range (l.length + 1)).any
    (fun i => [ 'd', 'a', 't', 'e' ].isPrefixOf ((l.map Char.toLower).drop i))

/-- Model of an onSkip callback invocation: append a skip event. -/
def emitSkip (c : InternalStateMachineCore) (k : ErrKind) (fld : Option FieldName) :
    InternalStateMachineCore :=
  { c with
    events := c.events ++
      [Event.skip ⟨k, c.currentLineNumber, c.currentLineContentForError, fld⟩] }

/-- The private helper resetCurrentRowState. -/
def resetCurrentRowState (c : InternalStateMachineCore) : InternalStateMachineCore :=
  { c with fieldBuffer := [], currentRow := PartialRow.empty, fieldIndex := 0 }

/-- The private helper resetForNewLine. -/
def resetForNewLine (c : InternalStateMachineCore) : InternalStateMachineCore :=
  { resetCurrentRowState c with currentLineContentForError := [] }

/-- Body of processFieldEnd, with the recursive self call abstracted into
the first argument.  The source method calls itself once on the malformed
header path after restoring the field buffer; that inner call runs with
the machine state waitingForDataRowStart and therefore cannot recurse
again, so two levels of this body reproduce the source exactly.  The
returned boolean is the source return value. -/
def processFieldEndOnce
    (recurse : InternalStateMachineCore → InternalStateMachineCore × Bool)
    (c0 : InternalStateMachineCore) : InternalStateMachineCore × Bool :=
  let fieldValue := trimChars c0.fieldBuffer
    let c := { c0 with fieldBuffer := [] }
    if c.state = ParserMachineInternalState.skippingLineDueToError then
      ({ c with fieldIndex := c.fieldIndex + 1 }, false)
    else if c.state = ParserMachineInternalState.processingHeader then
      let c := { c with fieldIndex := c.fieldIndex + 1 }
      if c.fieldIndex = 1 ∧ containsDate fieldValue = false then
        let c := emitSkip c ErrKind.invalidFormat (some FieldName.timestamp)
        let c := { c with state := ParserMachineInternalState.waitingForDataRowStart }
        let c := { resetCurrentRowState c with fieldBuffer := fieldValue }
        recurse c
      else (c, true)
    else if c.state ≠ ParserMachineInternalState.processingField then
      ({ emitSkip c ErrKind.parseError none with
          state := ParserMachineInternalState.skippingLineDueToError }, false)
    else
      match c.fieldIndex with
      | 0 =>
        match yyyymmddToUnixChars fieldValue with
        | Except.ok n =>
          ({ c with
              currentRow := { c.currentRow with ts := some (some (n : ℚ)) },
              fieldIndex := c.fieldIndex + 1 }, true)
        | Except.error e =>
          let k := match e with
            | DateFail.invalidDateFormat => ErrKind.invalidDateFormatErr
            | DateFail.dateBeforeEpoch => ErrKind.dateBeforeEpochErr
          ({ emitSkip c k (some FieldName.timestamp) with
              state := ParserMachineInternalState.skippingLineDueToError }, false)
      | 1 =>
        let ov := jsParseFloat fieldValue
        let c := { c with currentRow := { c.currentRow with o := some ov } }
        match ov with
        | none =>
          ({ emitSkip c ErrKind.invalidOpen (some FieldName.openField) with
              state := ParserMachineInternalState.skippingLineDueToError }, false)
        | some _ => ({ c with fieldIndex := c.fieldIndex + 1 }, true)
      | 2 =>
        let hv := jsParseFloat fieldValue
        let c := { c with currentRow := { c.currentRow with h := some hv } }
        match hv with
        | none =>
          ({ emitSkip c ErrKind.invalidHigh (some FieldName.high) with
              state := ParserMachineInternalState.skippingLineDueToError }, false)
        | some _ => ({ c with fieldIndex := c.fieldIndex + 1 }, true)
      | 3 =>
        let lv := jsParseFloat fieldValue
        let c := { c with currentRow := { c.currentRow with l := some lv } }
        match lv with
        | none =>
          ({ emitSkip c ErrKind.invalidLow (some FieldName.low) with
              state := ParserMachineInternalState.skippingLineDueToError }, false)
        | some _ => ({ c with fieldIndex := c.fieldIndex + 1 }, true)
      | 4 =>
        let cv := jsParseFloat fieldValue
        let c := { c with currentRow := { c.currentRow with c := some cv } }
        match cv with
        | none =>
          ({ emitSkip c ErrKind.invalidClose (some FieldName.close) with
              state := ParserMachineInternalState.skippingLineDueToError }, false)
        | some _ => ({ c with fieldIndex := c.fieldIndex + 1 }, true)
      | 5 =>
        let vv := jsParseInt10 fieldValue
        let c := { c with currentRow := { c.currentRow with v := some vv } }
        match vv with
        | none =>
          ({ emitSkip c ErrKind.invalidVolume (some FieldName.volume) with
              state := ParserMachineInternalState.skippingLineDueToError }, false)
        | some _ => ({ c with fieldIndex := c.fieldIndex + 1 }, true)
      | _ + 6 =>
        ({ emitSkip c ErrKind.invalidFormat none with
            state := ParserMachineInternalState.skippingLineDueToError }, false)

/-- Iterated body with fuel; fuel two covers the source recursion depth. -/
def processFieldEndAux :
    Nat → InternalStateMachineCore → InternalStateMachineCore × Bool
  | 0, c => (c, false)
  | fuel + 1, c => processFieldEndOnce (processFieldEndAux fuel) c

/-- The private method processFieldEnd. -/
def processFieldEnd (c : InternalStateMachineCore) : InternalStateMachineCore × Bool :=
  processFieldEndAux 2 c

/-- The private method processRowEnd. -/
def processRowEnd (c : InternalStateMachineCore) : InternalStateMachineCore × Bool :=
  if c.state = ParserMachineInternalState.skippingLineDueToError then
    (resetForNewLine { c with state := ParserMachineInternalState.waitingForDataRowStart },
      false)
  else if c.state = ParserMachineInternalState.processingHeader then
    (resetForNewLine { c with state := ParserMachineInternalState.waitingForDataRowStart },
      true)
  else if c.state ≠ ParserMachineInternalState.processingField then
    (resetForNewLine
      { emitSkip c ErrKind.parseError none with
          state := ParserMachineInternalState.waitingForDataRowStart }, false)
  else if c.fieldIndex = 0 ∧ trimChars c.currentLineContentForError = [] then
    (resetForNewLine { c with state := ParserMachineInternalState.waitingForDataRowStart },
      true)
  else if c.fieldIndex ≠ 6 then
    let c :=
      if c.fieldIndex = 1 ∧
          trimChars (c.currentLineContentForError.filter (fun ch => ch ≠ ',')) = [] then c
      else emitSkip c ErrKind.invalidFormat none
    (resetForNewLine { c with state := ParserMachineInternalState.waitingForDataRowStart },
      false)
  else
    match c.currentRow.ts, c.currentRow.o, c.currentRow.h,
        c.currentRow.l, c.currentRow.c, c.currentRow.v with
    | some tsv, some ov, some hv, some lv, some cv, some vv =>
      if ov = some 0 ∧ hv = some 0 ∧ lv = some 0 ∧ cv = some 0 ∧ vv = some 0 then
        (resetForNewLine
          { emitSkip c ErrKind.invalidFormat none with
              state := ParserMachineInternalState.waitingForDataRowStart }, true)
      else
        (resetForNewLine
          { c with
              events := c.events ++ [Event.row ⟨tsv, ov, hv, lv, cv, vv⟩ c.currentLineNumber],
              totalRowsProcessed := c.totalRowsProcessed + 1,
              state := ParserMachineInternalState.waitingForDataRowStart }, true)
    | _, _, _, _, _, _ =>
      (resetForNewLine
        { emitSkip c ErrKind.invalidFormat none with
            state := ParserMachineInternalState.waitingForDataRowStart }, true)

/-- The shared branch of processCharInternal for the two field processing
states, receiving the core after the line content append. -/
def processDelimitedChar (c : InternalStateMachineCore) (ch : Char) :
    InternalStateMachineCore :=
  if ch = ',' then (processFieldEnd c).1
  else if ch = '\n' then
    let r := if 0 < c.fieldBuffer.length ∨ 0 < c.fieldIndex then processFieldEnd c
             else (c, true)
    let c2 := if r.2 then (processRowEnd r.1).1
              else resetForNewLine
                { r.1 with state := ParserMachineInternalState.waitingForDataRowStart }
    { c2 with currentLineNumber := c2.currentLineNumber + 1 }
  else if ch = '\r' then c
  else { c with fieldBuffer := c.fieldBuffer ++ [ch] }

/-- The private method processCharInternal: one character step. -/
def processCharInternal (c0 : InternalStateMachineCore) (ch : Char) :
    InternalStateMachineCore :=
  let c := if ch = '\n' ∨ ch = '\r' then c0
           else { c0 with currentLineContentForError := c0.currentLineContentForError ++ [ch] }
  match c.state with
  | ParserMachineInternalState.waitingForHeaderStart =>
    if ch = '\n' then
      { c with currentLineNumber := c.currentLineNumber + 1, currentLineContentForError := [] }
    else if ch = '\r' then c
    else { c with state := ParserMachineInternalState.processingHeader,
                  fieldBuffer := c.fieldBuffer ++ [ch] }
  | ParserMachineInternalState.processingHeader => processDelimitedChar c ch
  | ParserMachineInternalState.processingField => processDelimitedChar c ch
  | ParserMachineInternalState.waitingForDataRowStart =>
    if ch = '\n' then
      { c with currentLineNumber := c.currentLineNumber + 1, currentLineContentForError := [] }
    else if ch = '\r' then c
    else { c with state := ParserMachineInternalState.processingField,
                  fieldBuffer := c.fieldBuffer ++ [ch] }
  | ParserMachineInternalState.skippingLineDueToError =>
    if ch = '\n' then
      { resetForNewLine { c with state := ParserMachineInternalState.waitingForDataRowStart }
          with currentLineNumber := c.currentLineNumber + 1 }
    else c

/-- The public method processChunk: fold the character step over the chunk. -/
def processChunk (c : InternalStateMachineCore) (chunk : List Char) :
    InternalStateMachineCore :=
  chunk.foldl processCharInternal c

/-- The public method finalize. -/
def finalize (c : InternalStateMachineCore) : InternalStateMachineCore :=
  if 0 < c.fieldBuffer.length ∧
      (c.state = ParserMachineInternalState.processingField ∨
        c.state = ParserMachineInternalState.processingHeader) then
    let r := processFieldEnd c
    if r.2 then
      if (r.1.state = ParserMachineInternalState.processingField ∨
            r.1.state = ParserMachineInternalState.processingHeader) ∧ 0 < r.1.fieldIndex then
        (processRowEnd r.1).1
      else r.1
    else r.1
  else if c.state = ParserMachineInternalState.skippingLineDueToError ∧
      0 < c.currentLineContentForError.length then
    emitSkip c ErrKind.parseError none
  else c

end InternalStateMachineCore

/-- A fresh core, as built by the constructor. -/
def initialCore : InternalStateMachineCore :=
  ⟨[], PartialRow.empty, 0, ParserMachineInternalState.waitingForHeaderStart, 1, [], [], 0⟩

/-- The rows passed to the row callback, in order. -/
def emittedRows (c : InternalStateMachineCore) : List Row :=
  c.events.filterMap (fun ev => match ev with
    | Event.row r _ => some r
    | Event.skip _ => none)

/-- The skip callback invocations, in order. -/
def skipEvents (c : InternalStateMachineCore) : List SkipEvent :=
  c.events.filterMap (fun ev => match ev with
    | Event.row _ _ => none
    | Event.skip e => some e)

/-- Run of the full string entry point on a character list: one chunk then
finalize, as in src/parser/state_machine_full_string.ts. -/
def runFullOnChars (l : List Char) : InternalStateMachineCore :=
  InternalStateMachineCore.finalize (InternalStateMachineCore.processChunk initialCore l)

/-- The entry point parseFullStringWithStateMachine: the collected rows. -/
def parseFullStringWithStateMachine (s : String) : List Row :=
  emittedRows (runFullOnChars s.data)

/-- The skip notifications of a full string run. -/
def fullStringSkips (s : String) : List SkipEvent :=
  skipEvents (runFullOnChars s.data)

/-! ## The optimized single pass parser, from src/parser/stream_optimized_ohlcv.ts -/

/-- A row produced by the optimized parser; its fields have passed the NaN
checks, so they are plain rationals. -/
structure OptimizedRow where
  ts : ℚ
  o : ℚ
  h : ℚ
  l : ℚ
  c : ℚ
  v : ℚ
deriving DecidableEq, Repr

/-- Split at the first comma: the part before it and, when a comma exists,
the remainder after it. -/
def breakAtComma : List Char → List Char × Option (List Char)
  | [] => ([], none)
  | ch :: r =>
    if ch = ',' then ([], some r)
    else
      let p := breakAtComma r
      (ch :: p.1, p.2)

/-- Model of parseOhlcvLineOptimizedInternal: locate the first five commas
(the line fails unless at least five exist), convert the date segment with
the date normalizer (a failure is caught and gives null), convert the five
value segments with the unary plus, reject when any conversion is NaN, and
reject an all zero value row unless its timestamp is zero. -/
def parseOhlcvLineOptimizedInternal (line : List Char) : Option OptimizedRow :=
  match breakAtComma line with
  | (s0, some r1) =>
    match breakAtComma r1 with
    | (s1, some r2) =>
      match breakAtComma r2 with
      | (s2, some r3) =>
        match breakAtComma r3 with
        | (s3, some r4) =>
          match breakAtComma r4 with
          | (s4, some s5) =>
            (match yyyymmddToUnixChars s0 with
             | Except.error _ => none
             | Except.ok n =>
               match jsToNumber s1, jsToNumber s2, jsToNumber s3,
                   jsToNumber s4, jsToNumber s5 with
               | some ov, some hv, some lv, some cv, some vv =>
                 if ov = 0 ∧ hv = 0 ∧ lv = 0 ∧ cv = 0 ∧ vv = 0 ∧ (n : ℚ) ≠ 0 then none
                 else some ⟨(n : ℚ), ov, hv, lv, cv, vv⟩
               | _, _, _, _, _ => none)
          | (_, none) => none
        | (_, none) => none
      | (_, none) => none
    | (_, none) => none
  | (_, none) => none

/-! ## Basic lemmas about the core -/

namespace InternalStateMachineCore

/-- A character list free of the comma and line ending delimiters: the
shape of one field of one data line. -/
def delimFree (l : List Char) : Bool :=
  l.all (fun ch => !(ch == ',' || ch == '\n' || ch == '\r'))

/-- The configuration of the core at the start of a data line: waiting
for a data row with empty buffers and a zero field index. -/
def cleanDataStart (c : InternalStateMachineCore) : Prop :=
  c.state = ParserMachineInternalState.waitingForDataRowStart ∧
    c.fieldBuffer = [] ∧ c.currentRow = PartialRow.empty ∧ c.fieldIndex = 0 ∧
    c.currentLineContentForError = []

/-- The per line fields of the core are reset: empty buffers and a zero
field index. -/
def lineStart (c : InternalStateMachineCore) : Prop :=
  c.fieldBuffer = [] ∧ c.currentRow = PartialRow.empty ∧ c.fieldIndex = 0 ∧
    c.currentLineContentForError = []

/-- Whenever the core waits for a line start, its per line fields are reset. -/
def stateInv (c : InternalStateMachineCore) : Prop :=
  (c.state = ParserMachineInternalState.waitingForHeaderStart ∨
    c.state = ParserMachineInternalState.waitingForDataRowStart) → lineStart c

theorem processChunk_nil (c : InternalStateMachineCore) : processChunk c [] = c := rfl

theorem processChunk_singleton (c : InternalStateMachineCore) (ch : Char) :
    processChunk c [ch] = processCharInternal c ch := rfl

theorem processChunk_append (c : InternalStateMachineCore) (a b : List Char) :
    processChunk c (a ++ b) = processChunk (processChunk c a) b := by
  unfold processChunk
  exact List.foldl_append _ _ _ _

theorem processFieldEnd_def (c : InternalStateMachineCore) :
    processFieldEnd c = processFieldEndOnce (processFieldEndAux 1) c := rfl

theorem processFieldEndAux_one (c : InternalStateMachineCore) :
    processFieldEndAux 1 c = processFieldEndOnce (processFieldEndAux 0) c := rfl

/-- A plain character in the data field state appends to the field buffer
and to the line content. -/
theorem processCharInternal_plain (c : InternalStateMachineCore) (ch : Char)
    (hst : c.state = ParserMachineInternalState.processingField)
    (h1 : ch ≠ ',') (h2 : ch ≠ '\n') (h3 : ch ≠ '\r') :
    processCharInternal c ch =
      { c with fieldBuffer := c.fieldBuffer ++ [ch],
               currentLineContentForError := c.currentLineContentForError ++ [ch] } := by
  obtain ⟨fb, cr, fi, st, ln, lc, ev, tr⟩ := c
  simp only at hst
  subst hst
  simp [processCharInternal, processDelimitedChar, h1, h2, h3]

/-- A plain character in the waiting for data row state starts a field. -/
theorem processCharInternal_enter (c : InternalStateMachineCore) (ch : Char)
    (hst : c.state = ParserMachineInternalState.waitingForDataRowStart)
    (h2 : ch ≠ '\n') (h3 : ch ≠ '\r') :
    processCharInternal c ch =
      { c with state := ParserMachineInternalState.processingField,
               fieldBuffer := c.fieldBuffer ++ [ch],
               currentLineContentForError := c.currentLineContentForError ++ [ch] } := by
  obtain ⟨fb, cr, fi, st, ln, lc, ev, tr⟩ := c
  simp only at hst
  subst hst
  simp [processCharInternal, h2, h3]

/-- Processing a delimiter free character list in the data field state
appends it to the field buffer and to the line content. -/
theorem processChunk_plain (s : List Char) :
    ∀ c : InternalStateMachineCore,
      c.state = ParserMachineInternalState.processingField → delimFree s = true →
      processChunk c s =
        { c with fieldBuffer := c.fieldBuffer ++ s,
                 currentLineContentForError := c.currentLineContentForError ++ s } := by
  induction s with
  | nil =>
    intro c hst _
    simp [processChunk_nil]
  | cons ch t ih =>
    intro c hst hs
    simp only [delimFree, List.all_cons, Bool.and_eq_true, Bool.not_eq_true',
      Bool.or_eq_false_iff, beq_eq_false_iff_ne] at hs
    obtain ⟨⟨⟨hc1, hc2⟩, hc3⟩, ht⟩ := hs
    have hstep := processCharInternal_plain c ch hst hc1 hc2 hc3
    have : processChunk c (ch :: t) = processChunk (processCharInternal c ch) t := rfl
    rw [this, hstep, ih _ (by simp [hst]) ht]
    simp [List.append_assoc]

/-- Processing a nonempty delimiter free character list from the start of
a data line enters the data field state and fills the buffer with it. -/
theorem processChunk_enterPlain (c : InternalStateMachineCore) (s : List Char)
    (hst : c.state = ParserMachineInternalState.waitingForDataRowStart)
    (hs : delimFree s = true) (hne : s ≠ []) :
    processChunk c s =
      { c with state := ParserMachineInternalState.processingField,
               fieldBuffer := c.fieldBuffer ++ s,
               currentLineContentForError := c.currentLineContentForError ++ s } := by
  match s, hne with
  | ch :: t, _ =>
    simp only [delimFree, List.all_cons, Bool.and_eq_true, Bool.not_eq_true',
      Bool.or_eq_false_iff, beq_eq_false_iff_ne] at hs
    obtain ⟨⟨⟨hc1, hc2⟩, hc3⟩, ht⟩ := hs
    have hstep := processCharInternal_enter c ch hst hc2 hc3
    have hrw : processChunk c (ch :: t) = processChunk (processCharInternal c ch) t := rfl
    rw [hrw, hstep, processChunk_plain t _ (by simp) ht]
    simp [List.append_assoc]

/-- A comma at data field index zero parses the date field. -/
theorem comma_step_field0 (c : InternalStateMachineCore) (n : ℕ)
    (hst : c.state = ParserMachineInternalState.processingField)
    (hfi : c.fieldIndex = 0)
    (hts : yyyymmddToUnixChars (trimChars c.fieldBuffer) = Except.ok n) :
    processCharInternal c ',' =
      { c with fieldBuffer := [],
               currentRow := { c.currentRow with ts := some (some (n : ℚ)) },
               fieldIndex := c.fieldIndex + 1,
               currentLineContentForError := c.currentLineContentForError ++ [','] } := by
  obtain ⟨fb, cr, fi, st, ln, lc, ev, tr⟩ := c
  simp only at hst hfi hts
  subst hst; subst hfi
  simp [processCharInternal, processDelimitedChar, processFieldEnd_def,
    processFieldEndOnce, hts]

/-- A comma at data field index one parses the open field. -/
theorem comma_step_field1 (c : InternalStateMachineCore) (q : ℚ)
    (hst : c.state = ParserMachineInternalState.processingField)
    (hfi : c.fieldIndex = 1)
    (hq : jsParseFloat (trimChars c.fieldBuffer) = some q) :
    processCharInternal c ',' =
      { c with fieldBuffer := [],
               currentRow := { c.currentRow with o := some (some q) },
               fieldIndex := c.fieldIndex + 1,
               currentLineContentForError := c.currentLineContentForError ++ [','] } := by
  obtain ⟨fb, cr, fi, st, ln, lc, ev, tr⟩ := c
  simp only at hst hfi hq
  subst hst; subst hfi
  simp [processCharInternal, processDelimitedChar, processFieldEnd_def,
    processFieldEndOnce, hq]

/-- A comma at data field index two parses the high field. -/
theorem comma_step_field2 (c : InternalStateMachineCore) (q : ℚ)
    (hst : c.state = ParserMachineInternalState.processingField)
    (hfi : c.fieldIndex = 2)
    (hq : jsParseFloat (trimChars c.fieldBuffer) = some q) :
    processCharInternal c ',' =
      { c with fieldBuffer := [],
               currentRow := { c.currentRow with h := some (some q) },
               fieldIndex := c.fieldIndex + 1,
               currentLineContentForError := c.currentLineContentForError ++ [','] } := by
  obtain ⟨fb, cr, fi, st, ln, lc, ev, tr⟩ := c
  simp only at hst hfi hq
  subst hst; subst hfi
  simp [processCharInternal, processDelimitedChar, processFieldEnd_def,
    processFieldEndOnce, hq]

/-- A comma at data field index three parses the low field. -/
theorem comma_step_field3 (c : InternalStateMachineCore) (q : ℚ)
    (hst : c.state = ParserMachineInternalState.processingField)
    (hfi : c.fieldIndex = 3)
    (hq : jsParseFloat (trimChars c.fieldBuffer) = some q) :
    processCharInternal c ',' =
      { c with fieldBuffer := [],
               currentRow := { c.currentRow with l := some (some q) },
               fieldIndex := c.fieldIndex + 1,
               currentLineContentForError := c.currentLineContentForError ++ [','] } := by
  obtain ⟨fb, cr, fi, st, ln, lc, ev, tr⟩ := c
  simp only at hst hfi hq
  subst hst; subst hfi
  simp [processCharInternal, processDelimitedChar, processFieldEnd_def,
    processFieldEndOnce, hq]

/-- A comma at data field index four parses the close field. -/
theorem comma_step_field4 (c : InternalStateMachineCore) (q : ℚ)
    (hst : c.state = ParserMachineInternalState.processingField)
    (hfi : c.fieldIndex = 4)
    (hq : jsParseFloat (trimChars c.fieldBuffer) = some q) :
    processCharInternal c ',' =
      { c with fieldBuffer := [],
               currentRow := { c.currentRow with c := some (some q) },
               fieldIndex := c.fieldIndex + 1,
               currentLineContentForError := c.currentLineContentForError ++ [','] } := by
  obtain ⟨fb, cr, fi, st, ln, lc, ev, tr⟩ := c
  simp only at hst hfi hq
  subst hst; subst hfi
  simp [processCharInternal, processDelimitedChar, processFieldEnd_def,
    processFieldEndOnce, hq]

/-- A line feed at data field index five parses the volume field, then the
row end emits the completed record when it is not all zero. -/
theorem newline_step_field5 (c : InternalStateMachineCore)
    (tsv ov hv2 lv cv : JsNum) (q : ℚ)
    (hst : c.state = ParserMachineInternalState.processingField)
    (hfi : c.fieldIndex = 5)
    (hrow : c.currentRow = ⟨some tsv, some ov, some hv2, some lv, some cv, none⟩)
    (hq : jsParseInt10 (trimChars c.fieldBuffer) = some q)
    (hz : ¬(ov = some 0 ∧ hv2 = some 0 ∧ lv = some 0 ∧ cv = some 0 ∧ q = 0)) :
    processCharInternal c '\n' =
      { c with fieldBuffer := [],
               currentRow := PartialRow.empty,
               fieldIndex := 0,
               state := ParserMachineInternalState.waitingForDataRowStart,
               currentLineNumber := c.currentLineNumber + 1,
               currentLineContentForError := [],
               events := c.events ++
                 [Event.row ⟨tsv, ov, hv2, lv, cv, some q⟩ c.currentLineNumber],
               totalRowsProcessed := c.totalRowsProcessed + 1 } := by
  obtain ⟨fb, cr, fi, st, ln, lc, ev, tr⟩ := c
  simp only at hst hfi hrow hq
  subst hst; subst hfi; subst hrow
  simp [processCharInternal, processDelimitedChar, processFieldEnd_def,
    processFieldEndOnce, processRowEnd, resetForNewLine, resetCurrentRowState,
    hq, hz]

set_option maxHeartbeats 1600000
set_option maxRecDepth 1000000

/-- Processing one full valid data line from a clean data line start emits
exactly one record carrying the parsed numeric values, advances the line
counter, and returns the core to a clean data line start. -/
theorem processChunk_validLine (c : InternalStateMachineCore)
    (hclean : cleanDataStart c)
    (f0 f1 f2 f3 f4 f5 : List Char)
    (hd0 : delimFree f0 = true) (hd1 : delimFree f1 = true)
    (hd2 : delimFree f2 = true) (hd3 : delimFree f3 = true)
    (hd4 : delimFree f4 = true) (hd5 : delimFree f5 = true)
    (n : ℕ) (oq hq2 lq cq vq : ℚ)
    (hts : yyyymmddToUnixChars (trimChars f0) = Except.ok n)
    (ho : jsParseFloat (trimChars f1) = some oq)
    (hh : jsParseFloat (trimChars f2) = some hq2)
    (hl : jsParseFloat (trimChars f3) = some lq)
    (hc : jsParseFloat (trimChars f4) = some cq)
    (hv : jsParseInt10 (trimChars f5) = some vq)
    (hz : ¬(oq = 0 ∧ hq2 = 0 ∧ lq = 0 ∧ cq = 0 ∧ vq = 0)) :
    processChunk c
        (f0 ++ [','] ++ f1 ++ [','] ++ f2 ++ [','] ++ f3 ++ [','] ++ f4 ++ [','] ++
          f5 ++ ['\n']) =
      { c with
          currentLineNumber := c.currentLineNumber + 1,
          events := c.events ++
            [Event.row ⟨some (n : ℚ), some oq, some hq2, some lq, some cq, some vq⟩
              c.currentLineNumber],
          totalRowsProcessed := c.totalRowsProcessed + 1 } := by
  obtain ⟨fb, cr, fi, st, ln, lc, ev, tr⟩ := c
  obtain ⟨hst, hfb, hcr, hfi, hlc⟩ := hclean
  simp only at hst hfb hcr hfi hlc
  subst hst; subst hfb; subst hcr; subst hfi; subst hlc
  have hne0 : f0 ≠ [] := by
    intro h
    rw [h] at hts
    have hred : yyyymmddToUnixChars (trimChars ([] : List Char)) =
        Except.error DateFail.invalidDateFormat := rfl
    rw [hred] at hts
    exact Except.noConfusion hts
  have g1 : processChunk ⟨[], PartialRow.empty, 0, ParserMachineInternalState.waitingForDataRowStart, ln, [], ev, tr⟩ f0 = ⟨f0, PartialRow.empty, 0, ParserMachineInternalState.processingField, ln, f0, ev, tr⟩ := by
    rw [processChunk_enterPlain ⟨[], PartialRow.empty, 0, ParserMachineInternalState.waitingForDataRowStart, ln, [], ev, tr⟩ f0 rfl hd0 hne0]
    all_goals exact rfl
  have g2 : processChunk ⟨[], PartialRow.empty, 0, ParserMachineInternalState.waitingForDataRowStart, ln, [], ev, tr⟩ (f0 ++ [',']) = ⟨[], ⟨some (some (n : ℚ)), none, none, none, none, none⟩, 1, ParserMachineInternalState.processingField, ln, f0 ++ [','], ev, tr⟩ := by
    rw [processChunk_append, g1, processChunk_singleton,
      comma_step_field0 ⟨f0, PartialRow.empty, 0, ParserMachineInternalState.processingField, ln, f0, ev, tr⟩ n rfl rfl hts]
    all_goals exact rfl
  have g3 : processChunk ⟨[], PartialRow.empty, 0, ParserMachineInternalState.waitingForDataRowStart, ln, [], ev, tr⟩ (f0 ++ [','] ++ f1) = ⟨f1, ⟨some (some (n : ℚ)), none, none, none, none, none⟩, 1, ParserMachineInternalState.processingField, ln, f0 ++ [','] ++ f1, ev, tr⟩ := by
    rw [processChunk_append, g2, processChunk_plain f1 ⟨[], ⟨some (some (n : ℚ)), none, none, none, none, none⟩, 1, ParserMachineInternalState.processingField, ln, f0 ++ [','], ev, tr⟩ rfl hd1]
    all_goals exact rfl
  have g4 : processChunk ⟨[], PartialRow.empty, 0, ParserMachineInternalState.waitingForDataRowStart, ln, [], ev, tr⟩ (f0 ++ [','] ++ f1 ++ [',']) = ⟨[], ⟨some (some (n : ℚ)), some (some oq), none, none, none, none⟩, 2, ParserMachineInternalState.processingField, ln, f0 ++ [','] ++ f1 ++ [','], ev, tr⟩ := by
    rw [processChunk_append, g3, processChunk_singleton,
      comma_step_field1 ⟨f1, ⟨some (some (n : ℚ)), none, none, none, none, none⟩, 1, ParserMachineInternalState.processingField, ln, f0 ++ [','] ++ f1, ev, tr⟩ oq rfl rfl ho]
  have g5 : processChunk ⟨[], PartialRow.empty, 0, ParserMachineInternalState.waitingForDataRowStart, ln, [], ev, tr⟩ (f0 ++ [','] ++ f1 ++ [','] ++ f2) = ⟨f2, ⟨some (some (n : ℚ)), some (some oq), none, none, none, none⟩, 2, ParserMachineInternalState.processingField, ln, f0 ++ [','] ++ f1 ++ [','] ++ f2, ev, tr⟩ := by
    rw [processChunk_append, g4, processChunk_plain f2 ⟨[], ⟨some (some (n : ℚ)), some (some oq), none, none, none, none⟩, 2, ParserMachineInternalState.processingField, ln, f0 ++ [','] ++ f1 ++ [','], ev, tr⟩ rfl hd2]
    all_goals exact rfl
  have g6 : processChunk ⟨[], PartialRow.empty, 0, ParserMachineInternalState.waitingForDataRowStart, ln, [], ev, tr⟩ (f0 ++ [','] ++ f1 ++ [','] ++ f2 ++ [',']) = ⟨[], ⟨some (some (n : ℚ)), some (some oq), some (some hq2), none, none, none⟩, 3, ParserMachineInternalState.processingField, ln, f0 ++ [','] ++ f1 ++ [','] ++ f2 ++ [','], ev, tr⟩ := by
    rw [processChunk_append, g5, processChunk_singleton,
      comma_step_field2 ⟨f2, ⟨some (some (n : ℚ)), some (some oq), none, none, none, none⟩, 2, ParserMachineInternalState.processingField, ln, f0 ++ [','] ++ f1 ++ [','] ++ f2, ev, tr⟩ hq2 rfl rfl hh]
  have g7 : processChunk ⟨[], PartialRow.empty, 0, ParserMachineInternalState.waitingForDataRowStart, ln, [], ev, tr⟩ (f0 ++ [','] ++ f1 ++ [','] ++ f2 ++ [','] ++ f3) = ⟨f3, ⟨some (some (n : ℚ)), some (some oq), some (some hq2), none, none, none⟩, 3, ParserMachineInternalState.processingField, ln, f0 ++ [','] ++ f1 ++ [','] ++ f2 ++ [','] ++ f3, ev, tr⟩ := by
    rw [processChunk_append, g6, processChunk_plain f3 ⟨[], ⟨some (some (n : ℚ)), some (some oq), some (some hq2), none, none, none⟩, 3, ParserMachineInternalState.processingField, ln, f0 ++ [','] ++ f1 ++ [','] ++ f2 ++ [','], ev, tr⟩ rfl hd3]
    all_goals exact rfl
  have g8 : processChunk ⟨[], PartialRow.empty, 0, ParserMachineInternalState.waitingForDataRowStart, ln, [], ev, tr⟩ (f0 ++ [','] ++ f1 ++ [','] ++ f2 ++ [','] ++ f3 ++ [',']) = ⟨[], ⟨some (some (n : ℚ)), some (some oq), some (some hq2), some (some lq), none, none⟩, 4, ParserMachineInternalState.processingField, ln, f0 ++ [','] ++ f1 ++ [','] ++ f2 ++ [','] ++ f3 ++ [','], ev, tr⟩ := by
    rw [processChunk_append, g7, processChunk_singleton,
      comma_step_field3 ⟨f3, ⟨some (some (n : ℚ)), some (some oq), some (some hq2), none, none, none⟩, 3, ParserMachineInternalState.processingField, ln, f0 ++ [','] ++ f1 ++ [','] ++ f2 ++ [','] ++ f3, ev, tr⟩ lq rfl rfl hl]
  have g9 : processChunk ⟨[], PartialRow.empty, 0, ParserMachineInternalState.waitingForDataRowStart, ln, [], ev, tr⟩ (f0 ++ [','] ++ f1 ++ [','] ++ f2 ++ [','] ++ f3 ++ [','] ++ f4) = ⟨f4, ⟨some (some (n : ℚ)), some (some oq), some (some hq2), some (some lq), none, none⟩, 4, ParserMachineInternalState.processingField, ln, f0 ++ [','] ++ f1 ++ [','] ++ f2 ++ [','] ++ f3 ++ [','] ++ f4, ev, tr⟩ := by
    rw [processChunk_append, g8, processChunk_plain f4 ⟨[], ⟨some (some (n : ℚ)), some (some oq), some (some hq2), some (some lq), none, none⟩, 4, ParserMachineInternalState.processingField, ln, f0 ++ [','] ++ f1 ++ [','] ++ f2 ++ [','] ++ f3 ++ [','], ev, tr⟩ rfl hd4]
    all_goals exact rfl
  have g10 : processChunk ⟨[], PartialRow.empty, 0, ParserMachineInternalState.waitingForDataRowStart, ln, [], ev, tr⟩ (f0 ++ [','] ++ f1 ++ [','] ++ f2 ++ [','] ++ f3 ++ [','] ++ f4 ++ [',']) = ⟨[], ⟨some (some (n : ℚ)), some (some oq), some (some hq2), some (some lq), some (some cq), none⟩, 5, ParserMachineInternalState.processingField, ln, f0 ++ [','] ++ f1 ++ [','] ++ f2 ++ [','] ++ f3 ++ [','] ++ f4 ++ [','], ev, tr⟩ := by
    rw [processChunk_append, g9, processChunk_singleton,
      comma_step_field4 ⟨f4, ⟨some (some (n : ℚ)), some (some oq), some (some hq2), some (some lq), none, none⟩, 4, ParserMachineInternalState.processingField, ln, f0 ++ [','] ++ f1 ++ [','] ++ f2 ++ [','] ++ f3 ++ [','] ++ f4, ev, tr⟩ cq rfl rfl hc]
  have g11 : processChunk ⟨[], PartialRow.empty, 0, ParserMachineInternalState.waitingForDataRowStart, ln, [], ev, tr⟩ (f0 ++ [','] ++ f1 ++ [','] ++ f2 ++ [','] ++ f3 ++ [','] ++ f4 ++ [','] ++ f5) = ⟨f5, ⟨some (some (n : ℚ)), some (some oq), some (some hq2), some (some lq), some (some cq), none⟩, 5, ParserMachineInternalState.processingField, ln, f0 ++ [','] ++ f1 ++ [','] ++ f2 ++ [','] ++ f3 ++ [','] ++ f4 ++ [','] ++ f5, ev, tr⟩ := by
    rw [processChunk_append, g10, processChunk_plain f5 ⟨[], ⟨some (some (n : ℚ)), some (some oq), some (some hq2), some (some lq), some (some cq), none⟩, 5, ParserMachineInternalState.processingField, ln, f0 ++ [','] ++ f1 ++ [','] ++ f2 ++ [','] ++ f3 ++ [','] ++ f4 ++ [','], ev, tr⟩ rfl hd5]
    all_goals exact rfl
  have g12 : processChunk ⟨[], PartialRow.empty, 0, ParserMachineInternalState.waitingForDataRowStart, ln, [], ev, tr⟩ (f0 ++ [','] ++ f1 ++ [','] ++ f2 ++ [','] ++ f3 ++ [','] ++ f4 ++ [','] ++ f5 ++ ['\n']) = ⟨[], PartialRow.empty, 0, ParserMachineInternalState.waitingForDataRowStart, ln + 1, [], ev ++ [Event.row ⟨some (n : ℚ), some oq, some hq2, some lq, some cq, some vq⟩ ln], tr + 1⟩ := by
    rw [processChunk_append, g11, processChunk_singleton,
      newline_step_field5 ⟨f5, ⟨some (some (n : ℚ)), some (some oq), some (some hq2), some (some lq), some (some cq), none⟩, 5, ParserMachineInternalState.processingField, ln, f0 ++ [','] ++ f1 ++ [','] ++ f2 ++ [','] ++ f3 ++ [','] ++ f4 ++ [','] ++ f5, ev, tr⟩ (some (n : ℚ)) (some oq) (some hq2) (some lq)
        (some cq) vq rfl rfl rfl hv (by simpa using hz)]
  exact g12

/-- Every branch of processRowEnd resets the per line fields and moves to
the waiting for data row state. -/
theorem processRowEnd_clean (c : InternalStateMachineCore) :
    (processRowEnd c).1.state = ParserMachineInternalState.waitingForDataRowStart ∧
      lineStart (processRowEnd c).1 := by
  unfold processRowEnd
  split
  · exact ⟨rfl, rfl, rfl, rfl, rfl⟩
  · split
    · exact ⟨rfl, rfl, rfl, rfl, rfl⟩
    · split
      · exact ⟨rfl, rfl, rfl, rfl, rfl⟩
      · split
        · exact ⟨rfl, rfl, rfl, rfl, rfl⟩
        · split
          · exact ⟨rfl, rfl, rfl, rfl, rfl⟩
          · split
            · split
              · exact ⟨rfl, rfl, rfl, rfl, rfl⟩
              · exact ⟨rfl, rfl, rfl, rfl, rfl⟩
            · exact ⟨rfl, rfl, rfl, rfl, rfl⟩

/-- The body call of processFieldEnd on a core in the waiting for data row
state lands in the defensive unexpected state branch. -/
theorem processFieldEndAux_one_waitingData (c : InternalStateMachineCore)
    (hst : c.state = ParserMachineInternalState.waitingForDataRowStart) :
    processFieldEndAux 1 c =
      ({ emitSkip { c with fieldBuffer := [] } ErrKind.parseError none with
          state := ParserMachineInternalState.skippingLineDueToError }, false) := by
  obtain ⟨fb, cr, fi, st, ln, lc, ev, tr⟩ := c
  simp only at hst
  subst hst
  simp [processFieldEndAux_one, processFieldEndOnce, emitSkip]

/-- processFieldEnd never moves the machine into one of the two waiting
states when it starts from a header or data field state. -/
theorem processFieldEnd_state_not_waiting (c : InternalStateMachineCore)
    (hst : c.state = ParserMachineInternalState.processingHeader ∨
      c.state = ParserMachineInternalState.processingField) :
    (processFieldEnd c).1.state = ParserMachineInternalState.processingHeader ∨
      (processFieldEnd c).1.state = ParserMachineInternalState.processingField ∨
      (processFieldEnd c).1.state = ParserMachineInternalState.skippingLineDueToError := by
  obtain ⟨fb, cr, fi, st, ln, lc, ev, tr⟩ := c
  simp only at hst
  rcases hst with hst | hst
  · subst hst
    rw [processFieldEnd_def]
    simp only [processFieldEndOnce]
    split
    · simp_all
    · split
      · split
        · rw [processFieldEndAux_one_waitingData _ rfl]
          simp [emitSkip]
        · simp
      · simp_all
  · subst hst
    rw [processFieldEnd_def]
    simp only [processFieldEndOnce]
    match fi with
    | 0 =>
      cases hp : yyyymmddToUnixChars (trimChars fb) <;> simp [hp, emitSkip]
    | 1 => cases hp : jsParseFloat (trimChars fb) <;> simp [hp, emitSkip]
    | 2 => cases hp : jsParseFloat (trimChars fb) <;> simp [hp, emitSkip]
    | 3 => cases hp : jsParseFloat (trimChars fb) <;> simp [hp, emitSkip]
    | 4 => cases hp : jsParseFloat (trimChars fb) <;> simp [hp, emitSkip]
    | 5 => cases hp : jsParseInt10 (trimChars fb) <;> simp [hp, emitSkip]
    | k + 6 => simp [emitSkip]

/-- A core whose state is one of the three line processing states
satisfies the invariant vacuously. -/
theorem stateInv_of_state_not_waiting (c : InternalStateMachineCore)
    (h : c.state = ParserMachineInternalState.processingHeader ∨
      c.state = ParserMachineInternalState.processingField ∨
      c.state = ParserMachineInternalState.skippingLineDueToError) :
    stateInv c := by
  intro hw
  rcases h with h | h | h <;> rcases hw with hw | hw <;> rw [h] at hw <;>
    exact absurd hw (by simp)

/-- A line feed processed in the header or data field state always lands
in the waiting for data row state with reset per line fields. -/
theorem newline_step_processing (c : InternalStateMachineCore)
    (hst : c.state = ParserMachineInternalState.processingHeader ∨
      c.state = ParserMachineInternalState.processingField) :
    (processCharInternal c '\n').state =
        ParserMachineInternalState.waitingForDataRowStart ∧
      lineStart (processCharInternal c '\n') := by
  obtain ⟨fb, cr, fi, st, ln, lc, ev, tr⟩ := c
  simp only at hst
  rcases hst with h | h
  · subst h
    simp only [processCharInternal, processDelimitedChar]
    simp
    by_cases hcond : 0 < fb.length ∨ 0 < fi
    · simp only [hcond, if_true, reduceIte]
      cases hb : (processFieldEnd ⟨fb, cr, fi,
          ParserMachineInternalState.processingHeader, ln, lc, ev, tr⟩).2
      · simp only [Bool.false_eq_true, if_false, reduceIte]
        exact ⟨rfl, rfl, rfl, rfl, rfl⟩
      · simp only [if_true, reduceIte]
        exact ⟨(processRowEnd_clean _).1, (processRowEnd_clean _).2⟩
    · simp only [hcond, if_false, reduceIte]
      exact ⟨(processRowEnd_clean _).1, (processRowEnd_clean _).2⟩
  · subst h
    simp only [processCharInternal, processDelimitedChar]
    simp
    by_cases hcond : 0 < fb.length ∨ 0 < fi
    · simp only [hcond, if_true, reduceIte]
      cases hb : (processFieldEnd ⟨fb, cr, fi,
          ParserMachineInternalState.processingField, ln, lc, ev, tr⟩).2
      · simp only [Bool.false_eq_true, if_false, reduceIte]
        exact ⟨rfl, rfl, rfl, rfl, rfl⟩
      · simp only [if_true, reduceIte]
        exact ⟨(processRowEnd_clean _).1, (processRowEnd_clean _).2⟩
    · simp only [hcond, if_false, reduceIte]
      exact ⟨(processRowEnd_clean _).1, (processRowEnd_clean _).2⟩

/-- One character step preserves the waiting state invariant. -/
theorem stateInv_step (c : InternalStateMachineCore) (ch : Char)
    (hinv : stateInv c) : stateInv (processCharInternal c ch) := by
  obtain ⟨fb, cr, fi, st, ln, lc, ev, tr⟩ := c
  cases st
  case waitingForHeaderStart =>
    obtain ⟨e1, e2, e3, e4⟩ := hinv (Or.inl rfl)
    simp only at e1 e2 e3 e4
    subst e1; subst e2; subst e3; subst e4
    by_cases h1 : ch = '\n'
    · subst h1
      intro _
      exact ⟨rfl, rfl, rfl, rfl⟩
    · by_cases h2 : ch = '\r'
      · subst h2
        intro _
        exact ⟨rfl, rfl, rfl, rfl⟩
      · simp only [processCharInternal, h1, h2]
        simp only [or_self, false_or, if_false, reduceIte]
        intro h
        simp at h
  case waitingForDataRowStart =>
    obtain ⟨e1, e2, e3, e4⟩ := hinv (Or.inr rfl)
    simp only at e1 e2 e3 e4
    subst e1; subst e2; subst e3; subst e4
    by_cases h1 : ch = '\n'
    · subst h1
      intro _
      exact ⟨rfl, rfl, rfl, rfl⟩
    · by_cases h2 : ch = '\r'
      · subst h2
        intro _
        exact ⟨rfl, rfl, rfl, rfl⟩
      · simp only [processCharInternal, h1, h2]
        simp only [or_self, false_or, if_false, reduceIte]
        intro h
        simp at h
  case processingHeader =>
    by_cases h1 : ch = ','
    · subst h1
      simp only [processCharInternal, processDelimitedChar]
      simp only [show (',' = '\n' ∨ ',' = '\r') = False by simp, if_false, reduceIte]
      exact stateInv_of_state_not_waiting _
        (processFieldEnd_state_not_waiting _ (Or.inl rfl))
    · by_cases h2 : ch = '\n'
      · subst h2
        intro _
        exact (newline_step_processing
          ⟨fb, cr, fi, ParserMachineInternalState.processingHeader, ln, lc, ev, tr⟩
          (Or.inl rfl)).2
      · by_cases h3 : ch = '\r'
        · subst h3
          simp only [processCharInternal, processDelimitedChar]
          simp only [show ('\r' = '\n' ∨ '\r' = '\r') = True by simp, if_true, reduceIte,
            show ('\r' = ',') = False by simp, show ('\r' = '\n') = False by simp,
            if_false]
          exact hinv
        · simp only [processCharInternal, processDelimitedChar, h1, h2, h3]
          simp only [or_self, false_or, if_false, reduceIte]
          intro h
          simp at h
  case processingField =>
    by_cases h1 : ch = ','
    · subst h1
      simp only [processCharInternal, processDelimitedChar]
      simp only [show (',' = '\n' ∨ ',' = '\r') = False by simp, if_false, reduceIte]
      exact stateInv_of_state_not_waiting _
        (processFieldEnd_state_not_waiting _ (Or.inr rfl))
    · by_cases h2 : ch = '\n'
      · subst h2
        intro _
        exact (newline_step_processing
          ⟨fb, cr, fi, ParserMachineInternalState.processingField, ln, lc, ev, tr⟩
          (Or.inr rfl)).2
      · by_cases h3 : ch = '\r'
        · subst h3
          simp only [processCharInternal, processDelimitedChar]
          simp only [show ('\r' = '\n' ∨ '\r' = '\r') = True by simp, if_true, reduceIte,
            show ('\r' = ',') = False by simp, show ('\r' = '\n') = False by simp,
            if_false]
          exact hinv
        · simp only [processCharInternal, processDelimitedChar, h1, h2, h3]
          simp only [or_self, false_or, if_false, reduceIte]
          intro h
          simp at h
  case skippingLineDueToError =>
    by_cases h1 : ch = '\n'
    · subst h1
      intro _
      exact ⟨rfl, rfl, rfl, rfl⟩
    · by_cases h2 : ch = '\r'
      · subst h2
        intro h
        simp [processCharInternal] at h
      · simp only [processCharInternal, h1, h2]
        simp only [or_self, false_or, if_false, reduceIte]
        intro h
        simp at h

/-- The invariant holds along any processed chunk. -/
theorem stateInv_processChunk (s : List Char) :
    ∀ c : InternalStateMachineCore, stateInv c → stateInv (processChunk c s) := by
  induction s with
  | nil => intro c h; exact h
  | cons ch t ih =>
    intro c h
    exact ih (processCharInternal c ch) (stateInv_step c ch h)

/-- The invariant holds for a fresh core. -/
theorem stateInv_initialCore : stateInv initialCore :=
  fun _ => ⟨rfl, rfl, rfl, rfl⟩

/-- Once the core has left the waiting for header state it never returns. -/
theorem step_not_waitingHeader (c : InternalStateMachineCore) (ch : Char)
    (hne : c.state ≠ ParserMachineInternalState.waitingForHeaderStart) :
    (processCharInternal c ch).state ≠
      ParserMachineInternalState.waitingForHeaderStart := by
  obtain ⟨fb, cr, fi, st, ln, lc, ev, tr⟩ := c
  simp only at hne
  cases st
  case waitingForHeaderStart => exact absurd rfl hne
  case waitingForDataRowStart =>
    by_cases h1 : ch = '\n'
    · subst h1; simp [processCharInternal]
    · by_cases h2 : ch = '\r'
      · subst h2; simp [processCharInternal]
      · simp [processCharInternal, h1, h2]
  case skippingLineDueToError =>
    by_cases h1 : ch = '\n'
    · subst h1; simp [processCharInternal, resetForNewLine, resetCurrentRowState]
    · by_cases h2 : ch = '\r'
      · subst h2; simp [processCharInternal]
      · simp [processCharInternal, h1, h2]
  case processingHeader =>
    by_cases h1 : ch = ','
    · subst h1
      simp only [processCharInternal, processDelimitedChar]
      simp only [show (',' = '\n' ∨ ',' = '\r') = False by simp, if_false, reduceIte]
      rcases processFieldEnd_state_not_waiting
          ⟨fb, cr, fi, ParserMachineInternalState.processingHeader, ln, lc ++ [','],
            ev, tr⟩ (Or.inl rfl) with hs | hs | hs <;> rw [hs] <;> simp
    · by_cases h2 : ch = '\n'
      · subst h2
        rw [(newline_step_processing
          ⟨fb, cr, fi, ParserMachineInternalState.processingHeader, ln, lc, ev, tr⟩
          (Or.inl rfl)).1]
        simp
      · by_cases h3 : ch = '\r'
        · subst h3
          simp [processCharInternal, processDelimitedChar]
        · simp [processCharInternal, processDelimitedChar, h1, h2, h3]
  case processingField =>
    by_cases h1 : ch = ','
    · subst h1
      simp only [processCharInternal, processDelimitedChar]
      simp only [show (',' = '\n' ∨ ',' = '\r') = False by simp, if_false, reduceIte]
      rcases processFieldEnd_state_not_waiting
          ⟨fb, cr, fi, ParserMachineInternalState.processingField, ln, lc ++ [','],
            ev, tr⟩ (Or.inr rfl) with hs | hs | hs <;> rw [hs] <;> simp
    · by_cases h2 : ch = '\n'
      · subst h2
        rw [(newline_step_processing
          ⟨fb, cr, fi, ParserMachineInternalState.processingField, ln, lc, ev, tr⟩
          (Or.inr rfl)).1]
        simp
      · by_cases h3 : ch = '\r'
        · subst h3
          simp [processCharInternal, processDelimitedChar]
        · simp [processCharInternal, processDelimitedChar, h1, h2, h3]

/-- A core outside the waiting for header state stays outside it along
any further chunk. -/
theorem processChunk_not_waitingHeader (s : List Char) :
    ∀ c : InternalStateMachineCore,
      c.state ≠ ParserMachineInternalState.waitingForHeaderStart →
      (processChunk c s).state ≠ ParserMachineInternalState.waitingForHeaderStart := by
  induction s with
  | nil => intro c hd; exact hd
  | cons ch t ih =>
    intro c hd
    exact ih (processCharInternal c ch) (step_not_waitingHeader c ch hd)

/-- A chunk containing at least one character other than a line ending
leaves the core outside the waiting for header state. -/
theorem processChunk_any_not_waitingHeader (s : List Char)
    (hs : (s.any (fun ch => !(ch == '\n' || ch == '\r'))) = true) :
    ∀ c : InternalStateMachineCore,
      (processChunk c s).state ≠ ParserMachineInternalState.waitingForHeaderStart := by
  induction s with
  | nil => simp at hs
  | cons ch t ih =>
    intro c
    simp only [List.any_cons, Bool.or_eq_true] at hs
    have hstep : processChunk c (ch :: t) = processChunk (processCharInternal c ch) t :=
      rfl
    rw [hstep]
    rcases hs with hch | ht
    · have hne : (processCharInternal c ch).state ≠
          ParserMachineInternalState.waitingForHeaderStart := by
        simp only [Bool.not_eq_eq_eq_not, Bool.not_true, Bool.or_eq_false_iff,
          beq_eq_false_iff_ne] at hch
        by_cases hw : c.state = ParserMachineInternalState.waitingForHeaderStart
        · obtain ⟨fb, cr, fi, st, ln, lc, ev, tr⟩ := c
          simp only at hw
          subst hw
          simp [processCharInternal, hch.1, hch.2]
        · exact step_not_waitingHeader c ch hw
      exact processChunk_not_waitingHeader t _ hne
    · exact ih ht _

/-- A line feed processed outside the waiting for header state lands in
the waiting for data row state with reset per line fields, provided the
invariant holds. -/
theorem newline_step_not_header (c : InternalStateMachineCore)
    (hne : c.state ≠ ParserMachineInternalState.waitingForHeaderStart)
    (hinv : stateInv c) :
    (processCharInternal c '\n').state =
        ParserMachineInternalState.waitingForDataRowStart ∧
      lineStart (processCharInternal c '\n') := by
  obtain ⟨fb, cr, fi, st, ln, lc, ev, tr⟩ := c
  cases st
  case waitingForHeaderStart => simp at hne
  case processingHeader => exact newline_step_processing _ (Or.inl rfl)
  case processingField => exact newline_step_processing _ (Or.inr rfl)
  case waitingForDataRowStart =>
    obtain ⟨e1, e2, e3, e4⟩ := hinv (Or.inr rfl)
    simp only at e1 e2 e3 e4
    subst e1; subst e2; subst e3; subst e4
    exact ⟨rfl, rfl, rfl, rfl, rfl⟩
  case skippingLineDueToError =>
    exact ⟨rfl, rfl, rfl, rfl, rfl⟩

/-- finalize does nothing on a core that waits for a line start with an
empty field buffer. -/
theorem finalize_no_op (c : InternalStateMachineCore)
    (hst : c.state = ParserMachineInternalState.waitingForHeaderStart ∨
      c.state = ParserMachineInternalState.waitingForDataRowStart)
    (hb : c.fieldBuffer = []) :
    finalize c = c := by
  obtain ⟨fb, cr, fi, st, ln, lc, ev, tr⟩ := c
  simp only at hst hb
  subst hb
  rcases hst with h | h <;> subst h <;> simp [finalize]

/-- When processFieldEnd reports success from a header or data field
state, the machine state is unchanged and the field index is positive. -/
theorem processFieldEnd_true (c : InternalStateMachineCore)
    (hst : c.state = ParserMachineInternalState.processingHeader ∨
      c.state = ParserMachineInternalState.processingField)
    (hr : (processFieldEnd c).2 = true) :
    (processFieldEnd c).1.state = c.state ∧ 0 < (processFieldEnd c).1.fieldIndex := by
  obtain ⟨fb, cr, fi, st, ln, lc, ev, tr⟩ := c
  simp only at hst
  rcases hst with hst | hst
  · subst hst
    rw [processFieldEnd_def] at hr ⊢
    simp only [processFieldEndOnce] at hr ⊢
    split at hr
    · simp_all
    · split at hr
      · rw [processFieldEndAux_one_waitingData _ rfl] at hr
        split at hr
        · simp at hr
        · rename_i hcond
          have hcond2 : ¬(fi = 0 ∧ containsDate (trimChars fb) = false) := by
            simpa using hcond
          simp [hcond2]
      · simp_all
  · subst hst
    rw [processFieldEnd_def] at hr ⊢
    simp only [processFieldEndOnce] at hr ⊢
    match fi with
    | 0 => cases hp : yyyymmddToUnixChars (trimChars fb) <;> simp_all
    | 1 => cases hp : jsParseFloat (trimChars fb) <;> simp_all
    | 2 => cases hp : jsParseFloat (trimChars fb) <;> simp_all
    | 3 => cases hp : jsParseFloat (trimChars fb) <;> simp_all
    | 4 => cases hp : jsParseFloat (trimChars fb) <;> simp_all
    | 5 => cases hp : jsParseInt10 (trimChars fb) <;> simp_all
    | k + 6 => simp_all

/-- A list that trims to empty consists of whitespace only. -/
theorem all_whitespace_of_trimChars_eq_nil (l : List Char) (h : trimChars l = []) :
    ∀ ch ∈ l, isJsWhitespace ch = true := by
  unfold trimChars at h
  rw [List.reverse_eq_nil_iff, List.dropWhile_eq_nil_iff] at h
  intro ch hm
  have hm2 : ch ∈ l.takeWhile isJsWhitespace ++ l.dropWhile isJsWhitespace := by
    rw [List.takeWhile_append_dropWhile]
    exact hm
  rcases List.mem_append.mp hm2 with hmem | hmem
  · exact List.mem_takeWhile_imp hmem
  · exact h ch (List.mem_reverse.mpr hmem)

/-- A whitespace only list trims to empty. -/
theorem trimChars_eq_nil_of_all (l : List Char)
    (h : ∀ ch ∈ l, isJsWhitespace ch = true) : trimChars l = [] := by
  unfold trimChars
  have h1 : l.dropWhile isJsWhitespace = [] :=
    List.dropWhile_eq_nil_iff.mpr h
  rw [h1]
  rfl

/-- Removing characters from a whitespace only line keeps it trimming to
empty. -/
theorem trimChars_filter_eq_nil (l : List Char) (p : Char → Bool)
    (h : trimChars l = []) : trimChars (l.filter p) = [] := by
  have hall := all_whitespace_of_trimChars_eq_nil l h
  exact trimChars_eq_nil_of_all _ (fun ch hm => hall ch (List.mem_of_mem_filter hm))

/-- For a core ending mid field, finalize produces exactly the callback
effects that processing one final line feed would produce. -/
theorem finalize_events_eq_newline (c : InternalStateMachineCore)
    (hst : c.state = ParserMachineInternalState.processingHeader ∨
      c.state = ParserMachineInternalState.processingField)
    (hb : c.fieldBuffer ≠ []) :
    (finalize c).events = (processCharInternal c '\n').events ∧
      (finalize c).totalRowsProcessed =
        (processCharInternal c '\n').totalRowsProcessed := by
  have hlen : 0 < c.fieldBuffer.length := List.length_pos.mpr hb
  obtain ⟨fb, cr, fi, st, ln, lc, ev, tr⟩ := c
  simp only at hst hlen
  rcases hst with h | h <;> subst h
  · cases hb2 : (processFieldEnd ⟨fb, cr, fi,
        ParserMachineInternalState.processingHeader, ln, lc, ev, tr⟩).2
    · simp only [processCharInternal, processDelimitedChar, finalize]
      simp [hlen, hb2, resetForNewLine, resetCurrentRowState]
    · have htrue := processFieldEnd_true
        ⟨fb, cr, fi, ParserMachineInternalState.processingHeader, ln, lc, ev, tr⟩
        (Or.inl rfl) hb2
      simp only [processCharInternal, processDelimitedChar, finalize]
      simp [hlen, hb2, htrue.1, htrue.2]
  · cases hb2 : (processFieldEnd ⟨fb, cr, fi,
        ParserMachineInternalState.processingField, ln, lc, ev, tr⟩).2
    · simp only [processCharInternal, processDelimitedChar, finalize]
      simp [hlen, hb2, resetForNewLine, resetCurrentRowState]
    · have htrue := processFieldEnd_true
        ⟨fb, cr, fi, ParserMachineInternalState.processingField, ln, lc, ev, tr⟩
        (Or.inr rfl) hb2
      simp only [processCharInternal, processDelimitedChar, finalize]
      simp [hlen, hb2, htrue.1, htrue.2]

end InternalStateMachineCore

/-- A successful date normalization returns exactly the epoch day count of
its components times the number of seconds of a day. -/
theorem yyyymmddToUnixChars_ok_value (l : List Char) (n : Nat)
    (h : yyyymmddToUnixChars l = Except.ok n) :
    n = 86400 * daysFromCivil (dateYearOf l) (dateMonthOf l) (dateDayOf l) := by
  unfold yyyymmddToUnixChars at h
  split at h
  · split at h
    · simp only at h
      split at h
      · simp at h
      · split at h
        · simp at h
        · split at h
          · simp at h
          · simp only [Except.ok.injEq] at h
            subst h
            simp [dateYearOf, dateMonthOf, dateDayOf]
    · simp at h
  · simp at h

/-! ## Claims -/

open InternalStateMachineCore

/-- C1: the specification states that a header line whose first field does
not contain the substring date case insensitively is reported once as
malformed and then re-processed as the first data row, yielding a record
when its six fields are valid.  The code instead re-enters processFieldEnd
with the machine state already set to waitingForDataRowStart, lands in the
defensive unexpected state branch, reports a second state machine error
skip, and discards the whole line.  On the failing input below the run
produces exactly the two skip notifications on line one and no record. -/
theorem claim_C1 :
    (runFullOnChars ("2023-01-01,1,2,1,1,10\n").data).events =
      [Event.skip ⟨ErrKind.invalidFormat, 1, ("2023-01-01,").data,
          some FieldName.timestamp⟩,
        Event.skip ⟨ErrKind.parseError, 1, ("2023-01-01,").data, none⟩] ∧
    parseFullStringWithStateMachine "2023-01-01,1,2,1,1,10\n" = [] := by
  constructor
  · with_unfolding_all rfl
  · with_unfolding_all rfl

/-- C2: the specification states that the skip callback is invoked at most
once per physical line and never for an emitted row.  On an input whose
header line first field does not contain the substring date, the broken
header recovery path invokes the skip callback twice for physical line
one, so the claim fails on the code: the run below records two skip
notifications both tagged with line number one, and no record. -/
theorem claim_C2 :
    skipEvents (runFullOnChars ("foo,1,2,3,4,5\n").data) =
      [⟨ErrKind.invalidFormat, 1, ("foo,").data, some FieldName.timestamp⟩,
        ⟨ErrKind.parseError, 1, ("foo,").data, none⟩] ∧
    emittedRows (runFullOnChars ("foo,1,2,3,4,5\n").data) = [] := by
  constructor
  · with_unfolding_all rfl
  · with_unfolding_all rfl

/-- C3 counterexample: the claim states that an all zero data row is
skipped identically by the state machine and by the optimized single pass
parser, including a row whose timestamp parses to zero.  The optimized
parser only rejects an all zero row whose timestamp is nonzero, so the all
zero row dated 1970-01-01 is emitted as a record, not skipped. -/
theorem claim_C3_counterexample :
    parseOhlcvLineOptimizedInternal ("1970-01-01,0,0,0,0,0").data =
      some ⟨0, 0, 0, 0, 0, 0⟩ := by
  with_unfolding_all rfl

/-- C3 amended: a data row whose five value fields are all zero is always
skipped by the state machine row end with a malformed line shape error and
no record; the optimized single pass parser never emits an all zero row
with a nonzero timestamp, but it does emit the all zero row whose date is
1970-01-01. -/
theorem claim_C3 :
    (∀ (c : InternalStateMachineCore) (tsv : JsNum),
      c.state = ParserMachineInternalState.processingField →
      c.fieldIndex = 6 →
      c.currentRow = ⟨some tsv, some (some 0), some (some 0), some (some 0),
        some (some 0), some (some 0)⟩ →
      (processRowEnd c).1.events = c.events ++
          [Event.skip ⟨ErrKind.invalidFormat, c.currentLineNumber,
            c.currentLineContentForError, none⟩] ∧
        emittedRows (processRowEnd c).1 = emittedRows c) ∧
    (∀ (l : List Char) (r : OptimizedRow),
      parseOhlcvLineOptimizedInternal l = some r →
      r.o = 0 → r.h = 0 → r.l = 0 → r.c = 0 → r.v = 0 → r.ts = 0) ∧
    parseOhlcvLineOptimizedInternal ("1970-01-01,0,0,0,0,0").data =
      some ⟨0, 0, 0, 0, 0, 0⟩ := by
  refine ⟨?_, ?_, ?_⟩
  · intro c tsv hst hfi hrow
    obtain ⟨fb, cr, fi, st, ln, lc, ev, tr⟩ := c
    simp only at hst hfi hrow
    subst hst; subst hfi; subst hrow
    constructor
    · simp [processRowEnd, emitSkip, resetForNewLine, resetCurrentRowState]
    · simp [processRowEnd, emitSkip, resetForNewLine, resetCurrentRowState,
        emittedRows, List.filterMap_append]
  · intro l r h ho hh2 hl2 hc2 hv2
    unfold parseOhlcvLineOptimizedInternal at h
    repeat' split at h
    all_goals (try simp_all)
    cases h
    simp_all
  · with_unfolding_all rfl

/-- C3 witness: the state machine part applied to a concrete all zero row
at row end, and the optimized parser part applied to the all zero row
dated 1970-01-01. -/
theorem claim_C3_witness :
    (processRowEnd ⟨[], ⟨some (some 0), some (some 0), some (some 0), some (some 0),
        some (some 0), some (some 0)⟩, 6,
        ParserMachineInternalState.processingField, 3,
        ("1970-01-01,0,0,0,0,0").data, [], 0⟩).1.events =
      [Event.skip ⟨ErrKind.invalidFormat, 3, ("1970-01-01,0,0,0,0,0").data, none⟩] ∧
    OptimizedRow.ts ⟨0, 0, 0, 0, 0, 0⟩ = 0 := by
  constructor
  · exact (claim_C3.1 ⟨[], ⟨some (some 0), some (some 0), some (some 0),
      some (some 0), some (some 0), some (some 0)⟩, 6,
      ParserMachineInternalState.processingField, 3,
      ("1970-01-01,0,0,0,0,0").data, [], 0⟩ (some 0) rfl rfl rfl).1
  · exact claim_C3.2.1 ("1970-01-01,0,0,0,0,0").data ⟨0, 0, 0, 0, 0, 0⟩
      (by with_unfolding_all rfl) rfl rfl rfl rfl rfl

/-- C4: feeding any decomposition of the input into chunks one at a time
to processChunk and then calling finalize yields the same sequence of
emitted records and the same processed row total as feeding the whole
text as one chunk. -/
theorem claim_C4 (chunks : List (List Char)) :
    emittedRows (finalize (chunks.foldl processChunk initialCore)) =
      emittedRows (finalize (processChunk initialCore chunks.flatten)) ∧
    (finalize (chunks.foldl processChunk initialCore)).totalRowsProcessed =
      (finalize (processChunk initialCore chunks.flatten)).totalRowsProcessed := by
  have key : ∀ (cs : List (List Char)) (c : InternalStateMachineCore),
      cs.foldl processChunk c = processChunk c cs.flatten := by
    intro cs
    induction cs with
    | nil => intro c; rfl
    | cons a t ih =>
      intro c
      have h1 : (a :: t).flatten = a ++ t.flatten := by simp
      rw [List.foldl_cons, h1, processChunk_append]
      exact ih _
  rw [key]
  exact ⟨rfl, rfl⟩

/-- C5: a data row whose field count at row end is not six is skipped with
one malformed line shape notification and produces no record, except for
the stray blank line whose content with commas removed trims to empty. -/
theorem claim_C5 (c : InternalStateMachineCore)
    (hst : c.state = ParserMachineInternalState.processingField)
    (hfi : c.fieldIndex ≠ 6)
    (hnb : trimChars (c.currentLineContentForError.filter (fun ch => ch ≠ ',')) ≠ []) :
    (processRowEnd c).1.events = c.events ++
        [Event.skip ⟨ErrKind.invalidFormat, c.currentLineNumber,
          c.currentLineContentForError, none⟩] ∧
      emittedRows (processRowEnd c).1 = emittedRows c ∧
      (processRowEnd c).2 = false := by
  obtain ⟨fb, cr, fi, st, ln, lc, ev, tr⟩ := c
  simp only at hst hfi hnb
  subst hst
  have hblank : ¬(fi = 0 ∧ trimChars lc = []) := by
    rintro ⟨_, h2⟩
    exact hnb (trimChars_filter_eq_nil lc _ h2)
  have hsup : ¬(fi = 1 ∧ trimChars (lc.filter (fun ch => ch ≠ ',')) = []) := by
    rintro ⟨_, h2⟩
    exact hnb h2
  simp only [ne_eq, decide_not] at hsup
  refine ⟨?_, ?_, ?_⟩ <;>
    simp [processRowEnd, hblank, hsup, hfi, emitSkip, resetForNewLine,
      resetCurrentRowState, emittedRows, List.filterMap_append]

/-- C5 witness: a three field line at row end. -/
theorem claim_C5_witness :
    (processRowEnd ⟨[], ⟨some (some 1672531200), some (some 1), some (some 2),
        none, none, none⟩, 3, ParserMachineInternalState.processingField, 1,
        ("2023-01-01,1,2").data, [], 0⟩).1.events =
      [Event.skip ⟨ErrKind.invalidFormat, 1, ("2023-01-01,1,2").data, none⟩] := by
  exact (claim_C5 ⟨[], ⟨some (some 1672531200), some (some 1), some (some 2),
      none, none, none⟩, 3, ParserMachineInternalState.processingField, 1,
      ("2023-01-01,1,2").data, [], 0⟩ rfl (by decide) (by decide)).1

/-- C6: every well formed six field data line processed from a clean data
line start, whose date is valid and at or after the epoch and whose
values are not all zero, appends exactly one record event carrying the
parsed numeric values; and the full text entry point on the concrete
header plus data input of the claim returns exactly the stated record. -/
theorem claim_C6 :
    (∀ c : InternalStateMachineCore, cleanDataStart c →
      ∀ f0 f1 f2 f3 f4 f5 : List Char,
      delimFree f0 = true → delimFree f1 = true → delimFree f2 = true →
      delimFree f3 = true → delimFree f4 = true → delimFree f5 = true →
      ∀ (n : ℕ) (oq hq2 lq cq vq : ℚ),
      yyyymmddToUnixChars (trimChars f0) = Except.ok n →
      jsParseFloat (trimChars f1) = some oq →
      jsParseFloat (trimChars f2) = some hq2 →
      jsParseFloat (trimChars f3) = some lq →
      jsParseFloat (trimChars f4) = some cq →
      jsParseInt10 (trimChars f5) = some vq →
      ¬(oq = 0 ∧ hq2 = 0 ∧ lq = 0 ∧ cq = 0 ∧ vq = 0) →
      processChunk c
          (f0 ++ [','] ++ f1 ++ [','] ++ f2 ++ [','] ++ f3 ++ [','] ++ f4 ++ [','] ++
            f5 ++ ['\n']) =
        { c with
            currentLineNumber := c.currentLineNumber + 1,
            events := c.events ++
              [Event.row ⟨some (n : ℚ), some oq, some hq2, some lq, some cq, some vq⟩
                c.currentLineNumber],
            totalRowsProcessed := c.totalRowsProcessed + 1 }) ∧
    parseFullStringWithStateMachine
        "Date,Open,High,Low,Close,Volume\n2023-01-01,100.50,102.75,99.25,101.80,1500000\n" =
      [⟨some 1672531200, some (100.50 : ℚ), some (102.75 : ℚ), some (99.25 : ℚ),
        some (101.80 : ℚ), some 1500000⟩] := by
  constructor
  · intro c hclean f0 f1 f2 f3 f4 f5 hd0 hd1 hd2 hd3 hd4 hd5 n oq hq2 lq cq vq
      hts ho hh hl hc hv hz
    exact processChunk_validLine c hclean f0 f1 f2 f3 f4 f5 hd0 hd1 hd2 hd3 hd4 hd5
      n oq hq2 lq cq vq hts ho hh hl hc hv hz
  · have h1 :
        ("Date,Open,High,Low,Close,Volume\n2023-01-01,100.50,102.75,99.25,101.80,1500000\n").data
          = ("Date,Open,High,Low,Close,Volume\n").data ++
            ("2023-01-01,100.50,102.75,99.25,101.80,1500000\n").data := by
      with_unfolding_all rfl
    have h2 :
        processChunk initialCore ("Date,Open,High,Low,Close,Volume\n").data =
          ⟨[], PartialRow.empty, 0, ParserMachineInternalState.waitingForDataRowStart,
            2, [], [], 0⟩ := by
      with_unfolding_all rfl
    have h3 :
        processChunk
            (⟨[], PartialRow.empty, 0, ParserMachineInternalState.waitingForDataRowStart,
              2, [], [], 0⟩ : InternalStateMachineCore)
            ("2023-01-01,100.50,102.75,99.25,101.80,1500000\n").data =
          ⟨[], PartialRow.empty, 0, ParserMachineInternalState.waitingForDataRowStart, 3, [],
            [Event.row ⟨some 1672531200, some (100.50 : ℚ), some (102.75 : ℚ),
              some (99.25 : ℚ), some (101.80 : ℚ), some 1500000⟩ 2], 1⟩ := by
      with_unfolding_all rfl
    unfold parseFullStringWithStateMachine runFullOnChars
    rw [h1, processChunk_append, h2, h3]
    with_unfolding_all rfl

/-- C6 witness: the general clause applied to the concrete line built from
the six fields of a valid row. -/
theorem claim_C6_witness :
    processChunk
        ⟨[], PartialRow.empty, 0, ParserMachineInternalState.waitingForDataRowStart,
          1, [], [], 0⟩
        (("2023-01-01").data ++ [','] ++ ("1").data ++ [','] ++ ("2").data ++ [','] ++
          ("1").data ++ [','] ++ ("1").data ++ [','] ++ ("10").data ++ ['\n']) =
      ⟨[], PartialRow.empty, 0, ParserMachineInternalState.waitingForDataRowStart,
        2, [], [Event.row ⟨some 1672531200, some 1, some 2, some 1, some 1, some 10⟩ 1],
        1⟩ := by
  have h := claim_C6.1
    ⟨[], PartialRow.empty, 0, ParserMachineInternalState.waitingForDataRowStart,
      1, [], [], 0⟩
    ⟨rfl, rfl, rfl, rfl, rfl⟩
    (("2023-01-01").data) (("1").data) (("2").data) (("1").data) (("1").data)
    (("10").data)
    (by decide) (by decide) (by decide) (by decide) (by decide) (by decide)
    1672531200 1 2 1 1 10
    (by with_unfolding_all rfl) (by with_unfolding_all rfl)
    (by with_unfolding_all rfl) (by with_unfolding_all rfl)
    (by with_unfolding_all rfl) (by with_unfolding_all rfl)
    (by norm_num)
  exact h.trans (by with_unfolding_all rfl)

/-- C7: the four concrete behaviours of the date normalizer stated by the
claim, together with the general form of a successful result: the count
of whole seconds from the epoch to the UTC midnight of the parsed date,
that is, the epoch day count of its components times 86400. -/
theorem claim_C7 :
    yyyymmddToUnix "2023-01-01" = Except.ok 1672531200 ∧
    yyyymmddToUnix "1969-12-31" = Except.error DateFail.dateBeforeEpoch ∧
    yyyymmddToUnix "2023-02-30" = Except.error DateFail.invalidDateFormat ∧
    yyyymmddToUnix "2023/01/01" = Except.error DateFail.invalidDateFormat ∧
    ∀ (s : String) (n : Nat), yyyymmddToUnix s = Except.ok n →
      n = 86400 * daysFromCivil (dateYearOf s.data) (dateMonthOf s.data)
        (dateDayOf s.data) := by
  refine ⟨rfl, rfl, rfl, rfl, ?_⟩
  intro s n h
  exact yyyymmddToUnixChars_ok_value s.data n h

/-- C7 witness: the general clause applied to the first concrete date. -/
theorem claim_C7_witness :
    1672531200 = 86400 * daysFromCivil (dateYearOf ("2023-01-01").data)
      (dateMonthOf ("2023-01-01").data) (dateDayOf ("2023-01-01").data) :=
  claim_C7.2.2.2.2 "2023-01-01" 1672531200 rfl

/-- C8: the finalize flush invariant itself holds: for every core ending
mid field, finalize produces exactly the record and skip effects of one
synthesized final line feed.  The concrete expectation of the claim fails
on the code: the input consisting of the single line without a final line
feed yields no record at all, because its first line is consumed by the
broken malformed header path, which leaves the machine skipping, and the
no newline variant even reports one extra incomplete line notification at
the end of input.  Both variants agree on the emitted records, which are
empty, against the one record stated by the claim. -/
theorem claim_C8 :
    (∀ c : InternalStateMachineCore,
      c.state = ParserMachineInternalState.processingHeader ∨
        c.state = ParserMachineInternalState.processingField →
      c.fieldBuffer ≠ [] →
      (finalize c).events = (processCharInternal c '\n').events ∧
        (finalize c).totalRowsProcessed =
          (processCharInternal c '\n').totalRowsProcessed) ∧
    parseFullStringWithStateMachine "2023-01-01,1,2,1,1,10" =
      parseFullStringWithStateMachine "2023-01-01,1,2,1,1,10\n" ∧
    parseFullStringWithStateMachine "2023-01-01,1,2,1,1,10" = [] ∧
    fullStringSkips "2023-01-01,1,2,1,1,10" =
      [⟨ErrKind.invalidFormat, 1, ("2023-01-01,").data, some FieldName.timestamp⟩,
        ⟨ErrKind.parseError, 1, ("2023-01-01,").data, none⟩,
        ⟨ErrKind.parseError, 1, ("2023-01-01,1,2,1,1,10").data, none⟩] := by
  refine ⟨?_, ?_, ?_, ?_⟩
  · intro c hst hb
    exact finalize_events_eq_newline c hst hb
  · with_unfolding_all rfl
  · with_unfolding_all rfl
  · with_unfolding_all rfl

/-- C8 witness: the flush invariant applied to a concrete core ending mid
field. -/
theorem claim_C8_witness :
    (finalize ⟨("10").data, ⟨some (some 1672531200), some (some 1), some (some 2),
        some (some 1), some (some 1), none⟩, 5,
        ParserMachineInternalState.processingField, 2,
        ("2023-01-01,1,2,1,1,10").data, [], 0⟩).events =
      (processCharInternal ⟨("10").data, ⟨some (some 1672531200), some (some 1),
        some (some 2), some (some 1), some (some 1), none⟩, 5,
        ParserMachineInternalState.processingField, 2,
        ("2023-01-01,1,2,1,1,10").data, [], 0⟩ '\n').events := by
  exact (claim_C8.1 ⟨("10").data, ⟨some (some 1672531200), some (some 1),
    some (some 2), some (some 1), some (some 1), none⟩, 5,
    ParserMachineInternalState.processingField, 2,
    ("2023-01-01,1,2,1,1,10").data, [], 0⟩ (Or.inr rfl) (by decide)).1

/-- C9: per line failures never abort the run: after any prefix that ends
with a line feed and contains at least one character that is not a line
ending, a following valid six field data line always contributes exactly
its one record at the end of the output of the full run, whatever the
prefix contained.  The totality of processChunk and finalize, which never
raise for a data content problem, is expressed by the embedding itself:
both are total functions and every failure only appends a skip event. -/
theorem claim_C9 (pre f0 f1 f2 f3 f4 f5 : List Char)
    (hpre : (pre.any (fun ch => !(ch == '\n' || ch == '\r'))) = true)
    (hd0 : delimFree f0 = true) (hd1 : delimFree f1 = true)
    (hd2 : delimFree f2 = true) (hd3 : delimFree f3 = true)
    (hd4 : delimFree f4 = true) (hd5 : delimFree f5 = true)
    (n : ℕ) (oq hq2 lq cq vq : ℚ)
    (hts : yyyymmddToUnixChars (trimChars f0) = Except.ok n)
    (ho : jsParseFloat (trimChars f1) = some oq)
    (hh : jsParseFloat (trimChars f2) = some hq2)
    (hl : jsParseFloat (trimChars f3) = some lq)
    (hc : jsParseFloat (trimChars f4) = some cq)
    (hv : jsParseInt10 (trimChars f5) = some vq)
    (hz : ¬(oq = 0 ∧ hq2 = 0 ∧ lq = 0 ∧ cq = 0 ∧ vq = 0)) :
    emittedRows (runFullOnChars ((pre ++ ['\n']) ++
        (f0 ++ [','] ++ f1 ++ [','] ++ f2 ++ [','] ++ f3 ++ [','] ++ f4 ++ [','] ++
          f5 ++ ['\n']))) =
      emittedRows (runFullOnChars (pre ++ ['\n'])) ++
        [⟨some (n : ℚ), some oq, some hq2, some lq, some cq, some vq⟩] := by
  have hne : (processChunk initialCore pre).state ≠
      ParserMachineInternalState.waitingForHeaderStart :=
    processChunk_any_not_waitingHeader pre hpre initialCore
  have hinv : stateInv (processChunk initialCore pre) :=
    stateInv_processChunk pre initialCore stateInv_initialCore
  have hstep := newline_step_not_header (processChunk initialCore pre) hne hinv
  have hsplit : processChunk initialCore (pre ++ ['\n']) =
      processCharInternal (processChunk initialCore pre) '\n' := by
    rw [processChunk_append, processChunk_singleton]
  have hclean : cleanDataStart (processChunk initialCore (pre ++ ['\n'])) := by
    rw [hsplit]
    exact ⟨hstep.1, hstep.2⟩
  have hmain := processChunk_validLine (processChunk initialCore (pre ++ ['\n']))
    hclean f0 f1 f2 f3 f4 f5 hd0 hd1 hd2 hd3 hd4 hd5 n oq hq2 lq cq vq
    hts ho hh hl hc hv hz
  unfold runFullOnChars
  rw [processChunk_append, hmain]
  rw [finalize_no_op
      { processChunk initialCore (pre ++ ['\n']) with
        currentLineNumber :=
          (processChunk initialCore (pre ++ ['\n'])).currentLineNumber + 1,
        events := (processChunk initialCore (pre ++ ['\n'])).events ++
          [Event.row ⟨some (n : ℚ), some oq, some hq2, some lq, some cq, some vq⟩
            (processChunk initialCore (pre ++ ['\n'])).currentLineNumber],
        totalRowsProcessed :=
          (processChunk initialCore (pre ++ ['\n'])).totalRowsProcessed + 1 }
      (Or.inr hclean.1) hclean.2.1,
    finalize_no_op _ (Or.inr hclean.1) hclean.2.1]
  simp [emittedRows, List.filterMap_append]

/-- C9 witness: a malformed first line followed by a valid data line. -/
theorem claim_C9_witness :
    emittedRows (runFullOnChars ((("x").data ++ ['\n']) ++
        (("2023-01-01").data ++ [','] ++ ("1").data ++ [','] ++ ("2").data ++ [','] ++
          ("1").data ++ [','] ++ ("1").data ++ [','] ++ ("10").data ++ ['\n']))) =
      emittedRows (runFullOnChars (("x").data ++ ['\n'])) ++
        [⟨some 1672531200, some 1, some 2, some 1, some 1, some 10⟩] := by
  exact claim_C9 (("x").data) (("2023-01-01").data) (("1").data) (("2").data)
    (("1").data) (("1").data) (("10").data)
    (by decide) (by decide) (by decide) (by decide) (by decide) (by decide)
    (by decide)
    1672531200 1 2 1 1 10
    (by with_unfolding_all rfl) (by with_unfolding_all rfl)
    (by with_unfolding_all rfl) (by with_unfolding_all rfl)
    (by with_unfolding_all rfl) (by with_unfolding_all rfl)
    (by norm_num)

/-- C10 counterexample: on the concrete input of the claim, ending right
after a field separator with no newline, the parser is not in the data
field state at all: the line was consumed by the malformed header path
and the machine is skipping, so finalize is not silent, it reports an
incomplete errored line notification in addition to the two header skips,
against the claim that no skip is reported. -/
theorem claim_C10_counterexample :
    (processChunk initialCore ("2023-01-01,1,2,1,1,").data).state =
      ParserMachineInternalState.skippingLineDueToError ∧
    (runFullOnChars ("2023-01-01,1,2,1,1,").data).events =
      [Event.skip ⟨ErrKind.invalidFormat, 1, ("2023-01-01,").data,
          some FieldName.timestamp⟩,
        Event.skip ⟨ErrKind.parseError, 1, ("2023-01-01,").data, none⟩,
        Event.skip ⟨ErrKind.parseError, 1, ("2023-01-01,1,2,1,1,").data, none⟩] := by
  constructor
  · with_unfolding_all rfl
  · with_unfolding_all rfl

/-- C10 amended: when the input truly ends right after a field separator
while the parser is mid row in the data field state, so that the field
buffer is empty, finalize leaves the core unchanged: the partial row is
silently discarded with no record and no skip notification, unlike the
newline terminated variant, which reports a skip for the empty final
field.  The example input reaches that state only when a valid header
line precedes it. -/
theorem claim_C10 :
    (∀ c : InternalStateMachineCore,
      c.state = ParserMachineInternalState.processingField →
      c.fieldBuffer = [] → 0 < c.fieldIndex →
      finalize c = c) ∧
    (processChunk initialCore ("Date,O,H,L,C,V\n2023-01-01,1,2,1,1,").data).state =
      ParserMachineInternalState.processingField ∧
    (processChunk initialCore
        ("Date,O,H,L,C,V\n2023-01-01,1,2,1,1,").data).fieldBuffer = [] ∧
    (runFullOnChars ("Date,O,H,L,C,V\n2023-01-01,1,2,1,1,").data).events = [] ∧
    (runFullOnChars ("Date,O,H,L,C,V\n2023-01-01,1,2,1,1,\n").data).events =
      [Event.skip ⟨ErrKind.invalidVolume, 2, ("2023-01-01,1,2,1,1,").data,
        some FieldName.volume⟩] := by
  refine ⟨?_, ?_, ?_, ?_, ?_⟩
  · intro c hst hb hfi
    obtain ⟨fb, cr, fi, st, ln, lc, ev, tr⟩ := c
    simp only at hst hb
    subst hst; subst hb
    simp [finalize]
  · with_unfolding_all rfl
  · with_unfolding_all rfl
  · with_unfolding_all rfl
  · with_unfolding_all rfl

/-- C10 witness: the silent discard applied to a concrete mid row core
with an empty field buffer. -/
theorem claim_C10_witness :
    finalize ⟨[], ⟨some (some 1672531200), some (some 1), some (some 2),
        some (some 1), some (some 1), none⟩, 5,
        ParserMachineInternalState.processingField, 2,
        ("2023-01-01,1,2,1,1,").data, [], 0⟩ =
      ⟨[], ⟨some (some 1672531200), some (some 1), some (some 2),
        some (some 1), some (some 1), none⟩, 5,
        ParserMachineInternalState.processingField, 2,
        ("2023-01-01,1,2,1,1,").data, [], 0⟩ := by
  exact claim_C10.1 ⟨[], ⟨some (some 1672531200), some (some 1), some (some 2),
    some (some 1), some (some 1), none⟩, 5,
    ParserMachineInternalState.processingField, 2,
    ("2023-01-01,1,2,1,1,").data, [], 0⟩ rfl rfl (by decide)

end Ohlcv
